import Mathlib

/-!
Verification of the transcript selection and normalization core of
`cloud_function/main.py` and `scripts/fetch_japanese_transcript.py`
(function `fetch_japanese_transcript`).  The two files implement the same
algorithm; they differ only in the `source` tag string and in whether the
generic error handler attaches an `error_type` field, so the embedding
takes both as parameters.  Python floats are modelled as rationals,
Python string truthiness as inequality with the empty string, and the
`in` substring operator as infix of the character lists.
-/

/-- One caption-track descriptor, as collected into `transcript_info`
dicts from the listing call. -/
structure TranscriptDescriptor where
  language : String
  language_code : String
  is_generated : Bool
  is_translatable : Bool
deriving DecidableEq, Repr

/-- Python `needle in haystack` on strings: contiguous substring test,
as infix of the character lists. -/
def containsSubstr (haystack needle : String) : Bool :=
  decide (List.IsInfix needle.data haystack.data)

/-- Python `s.lower()`, character by character. -/
def strToLower (s : String) : String :=
  String.mk (s.data.map Char.toLower)

/-- Python `s.strip()`: drop leading and trailing whitespace characters. -/
def strTrim (s : String) : String :=
  String.mk
    (((s.data.dropWhile Char.isWhitespace).reverse.dropWhile
      Char.isWhitespace).reverse)

/-- Python `s.startswith(pre)`. -/
def strStartsWith (s pre : String) : Bool :=
  pre.data.isPrefixOf s.data

/-- Python `s.endswith(suf)`. -/
def strEndsWith (s suf : String) : Bool :=
  suf.data.isSuffixOf s.data

/-- The Japanese-candidate test from the listing loop:
`transcript.language_code == 'ja' or 'japanese' in transcript.language.lower()
or '日本語' in transcript.language`. -/
def isJapaneseCandidate (t : TranscriptDescriptor) : Bool :=
  t.language_code == "ja" ||
    containsSubstr (strToLower t.language) "japanese" ||
    containsSubstr t.language "日本語"

/-- The selection logic: among the Japanese candidates (in catalog order),
take the first manual one (`is_generated` false) if any exists, else the
first candidate; `none` when there are no candidates. -/
def selectJapanese (transcript_list : List TranscriptDescriptor) :
    Option TranscriptDescriptor :=
  match transcript_list.filter isJapaneseCandidate with
  | [] => none
  | j0 :: rest =>
    match (j0 :: rest).filter (fun jt => !jt.is_generated) with
    | [] => some j0
    | m0 :: _ => some m0

/-- One raw timed-text snippet of the fetched track (`start`, `duration`,
`text` fields; floats as rationals). -/
structure RawSnippet where
  start : ℚ
  duration : ℚ
  text : String
deriving DecidableEq, Repr

/-- One normalized output segment. -/
structure Segment where
  start : ℚ
  duration : ℚ
  «end» : ℚ
  text : String
deriving DecidableEq, Repr

/-- The retention test of the normalization loop:
`if text and not (text.startswith('[') and text.endswith(']'))`
applied to the already-trimmed text (Python string truthiness is
non-emptiness). -/
def keepText (text : String) : Bool :=
  !(text == "") && !(strStartsWith text "[" && strEndsWith text "]")

/-- The segment a snippet would map to: `end = start + duration`,
`text` whitespace-trimmed. -/
def toSegment (s : RawSnippet) : Segment :=
  { start := s.start, duration := s.duration,
    «end» := s.start + s.duration, text := strTrim s.text }

/-- One iteration of the normalization loop: emit the segment or drop
the snippet. -/
def normalizeSnippet (s : RawSnippet) : Option Segment :=
  let text := strTrim s.text
  if keepText text then some (toSegment s) else none

/-- The whole normalization loop over the fetched snippets, in order. -/
def segments (fetched_transcript : List RawSnippet) : List Segment :=
  fetched_transcript.filterMap normalizeSnippet

/-- The result dictionary; keys that some branches omit are `Option`s. -/
structure Result where
  available : Bool
  videoId : String
  message : Option String := none
  availableLanguages : Option (List String) := none
  title : Option String := none
  language : Option String := none
  languageCode : Option String := none
  isJapanese : Option Bool := none
  isGenerated : Option Bool := none
  segments : Option (List Segment) := none
  totalSegments : Option Nat := none
  totalDuration : Option ℚ := none
  error_type : Option String := none
  source : String
deriving DecidableEq, Repr

/-- The no-Japanese-transcripts return value (the `else` branch of the
selection). -/
def noJapaneseResult (video_id source : String)
    (available_transcripts : List TranscriptDescriptor) : Result :=
  { available := false
    videoId := video_id
    message := some "No Japanese transcripts available for this video"
    availableLanguages := some (available_transcripts.map fun t =>
      t.language ++ " (" ++ t.language_code ++ ")")
    source := source }

/-- The success return value. -/
def foundResult (video_id source : String) (sel : TranscriptDescriptor)
    (japanese_transcripts : List TranscriptDescriptor)
    (segs : List Segment) : Result :=
  { available := true
    videoId := video_id
    title := some ("Video " ++ video_id)
    language := some sel.language
    languageCode := some sel.language_code
    isJapanese := some true
    isGenerated := some sel.is_generated
    availableLanguages := some (japanese_transcripts.map fun jt =>
      jt.language ++ (if jt.is_generated then " (auto)" else " (manual)"))
    segments := some segs
    totalSegments := some segs.length
    totalDuration := some (match segs.getLast? with
      | some sg => sg.«end»
      | none => 0)
    source := source }

/-- The error taxonomy of the `except` clauses: `TranscriptsDisabled`,
`NoTranscriptFound` (carrying `str(e)`), and the generic `Exception`
(carrying `str(e)` and `type(e).__name__`). -/
inductive FetchError where
  | transcriptsDisabled : FetchError
  | noTranscriptFound : String → FetchError
  | otherError : String → String → FetchError
deriving DecidableEq, Repr

/-- The three `except` handlers.  `includeErrorType` is true for the
cloud-function file, which adds `error_type` in the generic handler. -/
def errorResult (video_id source : String) (includeErrorType : Bool) :
    FetchError → Result
  | .transcriptsDisabled =>
    { available := false
      videoId := video_id
      message := some "Transcripts are disabled for this video"
      source := source }
  | .noTranscriptFound m =>
    { available := false
      videoId := video_id
      message := some ("No transcript found: " ++ m)
      source := source }
  | .otherError m ty =>
    { available := false
      videoId := video_id
      message := some ("Error fetching transcript: " ++ m)
      error_type := if includeErrorType then some ty else none
      source := source }

/-- The whole `fetch_japanese_transcript` function, with the two external
calls (`ytt_api.list(video_id)` and `selected_transcript.fetch()`) passed
in as fallible capabilities; an error raised by either lands in the
matching handler. -/
def fetch_japanese_transcript (video_id source : String)
    (includeErrorType : Bool)
    (listTracks : Except FetchError (List TranscriptDescriptor))
    (fetchTrack : TranscriptDescriptor → Except FetchError (List RawSnippet)) :
    Result :=
  match listTracks with
  | .error e => errorResult video_id source includeErrorType e
  | .ok transcript_list =>
    match selectJapanese transcript_list with
    | none => noJapaneseResult video_id source transcript_list
    | some sel =>
      match fetchTrack sel with
      | .error e => errorResult video_id source includeErrorType e
      | .ok fetched =>
        foundResult video_id source sel
          (transcript_list.filter isJapaneseCandidate) (segments fetched)

/-! ## Helper lemmas -/

/-- `keepText` holds exactly on non-empty, non-bracket-wrapped strings. -/
theorem keepText_eq_true_iff (t : String) :
    keepText t = true ↔
      (t ≠ "" ∧ ¬(strStartsWith t "[" = true ∧ strEndsWith t "]" = true)) := by
  cases hs : strStartsWith t "[" <;> cases he : strEndsWith t "]" <;>
    simp [keepText, hs, he, beq_iff_eq]

/-- `keepText` fails exactly on empty or bracket-wrapped strings. -/
theorem keepText_eq_false_iff (t : String) :
    keepText t = false ↔
      (t = "" ∨ (strStartsWith t "[" = true ∧ strEndsWith t "]" = true)) := by
  rw [← Bool.not_eq_true, keepText_eq_true_iff]
  tauto

/-- Unfolding of the normalization step. -/
theorem normalizeSnippet_eq (s : RawSnippet) :
    normalizeSnippet s =
      if keepText (strTrim s.text) then some (toSegment s) else none := rfl

/-- A `filterMap` by a guarded `some` is a sublist of the full `map`. -/
theorem filterMap_guard_sublist {α β : Type} (p : α → Bool) (f : α → β) :
    ∀ l : List α,
      List.Sublist (l.filterMap fun a => if p a then some (f a) else none)
        (l.map f)
  | [] => List.Sublist.slnil
  | a :: l => by
    by_cases h : p a
    · simpa [List.filterMap_cons, h] using
        List.Sublist.cons₂ (f a) (filterMap_guard_sublist p f l)
    · simpa [List.filterMap_cons, h] using
        List.Sublist.cons (f a) (filterMap_guard_sublist p f l)

/-- The head of a filtered list is the first element satisfying the
predicate. -/
theorem head?_filter_eq_find? {α : Type} (p : α → Bool) :
    ∀ l : List α, (l.filter p).head? = l.find? p
  | [] => rfl
  | a :: l => by
    by_cases h : p a
    · simp [List.filter_cons, List.find?_cons, h]
    · simp [List.filter_cons, List.find?_cons, h, head?_filter_eq_find? p l]

/-! ## Claim theorems -/

/-- C2: a descriptor is a Japanese candidate if and only if its
`language_code` equals `"ja"` exactly, or the lower-cased language name
contains the substring `"japanese"`, or the language name contains the
substring `"日本語"`. -/
theorem japaneseCandidate_characterization (t : TranscriptDescriptor) :
    isJapaneseCandidate t = true ↔
      (t.language_code = "ja" ∨
        List.IsInfix "japanese".data (strToLower t.language).data ∨
        List.IsInfix "日本語".data t.language.data) := by
  simp only [isJapaneseCandidate, containsSubstr, Bool.or_eq_true,
    beq_iff_eq, decide_eq_true_eq]
  tauto

/-- C3: the normalizer drops a snippet exactly when its trimmed text is
empty or both starts with `"["` and ends with `"]"`; `"[music]"` and
whitespace-only text are dropped while `"[partial] hello"` is retained;
and the emitted segments are a sublist of the per-snippet images, so the
original order is preserved with no reordering, merging, or
duplication. -/
theorem normalizer_drop_rule (snips : List RawSnippet) (s : RawSnippet) :
    (normalizeSnippet s = none ↔
      (strTrim s.text = "" ∨
        (strStartsWith (strTrim s.text) "[" = true ∧
          strEndsWith (strTrim s.text) "]" = true))) ∧
    List.Sublist (segments snips) (snips.map toSegment) ∧
    normalizeSnippet ⟨0, 1, "[music]"⟩ = none ∧
    normalizeSnippet ⟨0, 1, "   "⟩ = none ∧
    normalizeSnippet ⟨5, 2, "[partial] hello"⟩ =
      some (toSegment ⟨5, 2, "[partial] hello"⟩) := by
  refine ⟨?_, ?_, by decide, by decide, ?_⟩
  · rw [normalizeSnippet_eq]
    by_cases h : keepText (strTrim s.text) = true
    · rw [if_pos h]
      obtain ⟨h1, h2⟩ := (keepText_eq_true_iff _).mp h
      constructor
      · intro hc
        simp at hc
      · intro hr
        rcases hr with he | hb
        · exact absurd he h1
        · exact absurd hb h2
    · constructor
      · intro _
        rw [Bool.not_eq_true] at h
        exact (keepText_eq_false_iff _).mp h
      · intro _
        rw [if_neg h]
  · have : segments snips =
        snips.filterMap fun a =>
          if keepText (strTrim a.text) then some (toSegment a) else none := rfl
    rw [this]
    exact filterMap_guard_sublist _ toSegment snips
  · rfl

/-- C4: a snippet whose trimmed text is non-empty and not bracket-wrapped
is emitted as a segment with `end = start + duration`, the trimmed text,
and `start` and `duration` carried through unchanged. -/
theorem normalizer_emits_trimmed (s : RawSnippet)
    (h1 : strTrim s.text ≠ "")
    (h2 : ¬(strStartsWith (strTrim s.text) "[" = true ∧
            strEndsWith (strTrim s.text) "]" = true)) :
    normalizeSnippet s =
      some { start := s.start, duration := s.duration, «end» := s.start + s.duration, text := strTrim s.text } := by
  have hk : keepText (strTrim s.text) = true :=
    (keepText_eq_true_iff _).mpr ⟨h1, h2⟩
  rw [normalizeSnippet_eq, if_pos hk]
  rfl

/-- Witness for C4, at the snippet `(1, 2, " hello ")`. -/
theorem normalizer_emits_trimmed_witness :
    normalizeSnippet ⟨1, 2, " hello "⟩ =
      some { start := (1 : ℚ), duration := (2 : ℚ), «end» := (1 : ℚ) + 2, text := strTrim " hello " } :=
  normalizer_emits_trimmed ⟨1, 2, " hello "⟩ (by decide) (by decide)

/-- C9: when every input snippet has non-negative `start` and `duration`,
every emitted segment satisfies `end >= start`, and its text is
non-empty and not a bracket-only annotation. -/
theorem segment_invariants (snips : List RawSnippet)
    (h : ∀ s ∈ snips, 0 ≤ s.start ∧ 0 ≤ s.duration) :
    ∀ seg ∈ segments snips,
      seg.start ≤ seg.«end» ∧ seg.text ≠ "" ∧
        ¬(strStartsWith seg.text "[" = true ∧
          strEndsWith seg.text "]" = true) := by
  intro seg hseg
  simp only [segments, List.mem_filterMap] at hseg
  obtain ⟨s, hs, hns⟩ := hseg
  rw [normalizeSnippet_eq] at hns
  by_cases hk : keepText (strTrim s.text) = true
  · rw [if_pos hk, Option.some.injEq] at hns
    subst hns
    obtain ⟨h1, h2⟩ := (keepText_eq_true_iff _).mp hk
    refine ⟨?_, h1, h2⟩
    have hd := (h s hs).2
    show s.start ≤ s.start + s.duration
    linarith
  · rw [if_neg hk] at hns
    exact absurd hns (by simp)

/-- Witness for C9, at the single snippet `(0, 1, "hi")`. -/
theorem segment_invariants_witness :
    (∀ s ∈ [(⟨0, 1, "hi"⟩ : RawSnippet)], 0 ≤ s.start ∧ 0 ≤ s.duration) ∧
    (∀ seg ∈ segments [(⟨0, 1, "hi"⟩ : RawSnippet)],
      seg.start ≤ seg.«end» ∧ seg.text ≠ "" ∧
        ¬(strStartsWith seg.text "[" = true ∧
          strEndsWith seg.text "]" = true)) :=
  ⟨by decide, segment_invariants [⟨0, 1, "hi"⟩] (by decide)⟩

/-- Two successive filters combine into the conjunction. -/
theorem filter_filter_and {α : Type} (p q : α → Bool) :
    ∀ l : List α, (l.filter p).filter q = l.filter fun a => p a && q a
  | [] => rfl
  | a :: l => by
    by_cases hp : p a
    · by_cases hq : q a <;>
        simp [List.filter_cons, hp, hq, filter_filter_and p q l]
    · simp [List.filter_cons, hp, filter_filter_and p q l]

/-- Unfolding of the selector when there are no Japanese candidates. -/
theorem selectJapanese_eq_nil (l : List TranscriptDescriptor)
    (hJ : l.filter isJapaneseCandidate = []) : selectJapanese l = none := by
  unfold selectJapanese
  rw [hJ]

/-- Unfolding of the selector when the Japanese candidates are known. -/
theorem selectJapanese_eq_cons (l : List TranscriptDescriptor)
    (j0 : TranscriptDescriptor) (rest : List TranscriptDescriptor)
    (hJ : l.filter isJapaneseCandidate = j0 :: rest) :
    selectJapanese l =
      match (j0 :: rest).filter (fun jt => !jt.is_generated) with
      | [] => some j0
      | m0 :: _ => some m0 := by
  unfold selectJapanese
  rw [hJ]

/-- C1: when the Japanese candidates include a manual one, the selector
returns the first manual Japanese candidate in catalog order; when they
are all auto-generated but at least one exists, it returns the first
Japanese candidate in catalog order. -/
theorem selector_first_manual_else_first (l : List TranscriptDescriptor) :
    ((l.filter fun t => isJapaneseCandidate t && !t.is_generated) ≠ [] →
      selectJapanese l =
        l.find? fun t => isJapaneseCandidate t && !t.is_generated) ∧
    ((l.filter fun t => isJapaneseCandidate t && !t.is_generated) = [] →
      (l.filter fun t => isJapaneseCandidate t && t.is_generated) ≠ [] →
      selectJapanese l = l.find? isJapaneseCandidate) := by
  have hm : (l.filter isJapaneseCandidate).filter (fun jt => !jt.is_generated)
      = l.filter fun t => isJapaneseCandidate t && !t.is_generated :=
    filter_filter_and _ _ l
  have hg : (l.filter isJapaneseCandidate).filter (fun t => t.is_generated)
      = l.filter fun t => isJapaneseCandidate t && t.is_generated :=
    filter_filter_and _ _ l
  constructor
  · intro hne
    cases hJ : l.filter isJapaneseCandidate with
    | nil =>
      refine absurd ?_ hne
      rw [← hm, hJ]
      rfl
    | cons j0 rest =>
      rw [selectJapanese_eq_cons l j0 rest hJ]
      rw [hJ] at hm
      rw [hm]
      cases hB : l.filter (fun t => isJapaneseCandidate t && !t.is_generated)
        with
      | nil => exact absurd hB hne
      | cons m0 ms =>
        rw [← head?_filter_eq_find?, hB]
        rfl
  · intro hmn hauto
    cases hJ : l.filter isJapaneseCandidate with
    | nil =>
      refine absurd ?_ hauto
      rw [← hg, hJ]
      rfl
    | cons j0 rest =>
      rw [selectJapanese_eq_cons l j0 rest hJ]
      rw [hJ] at hm
      rw [hm, hmn]
      rw [← head?_filter_eq_find?, hJ]
      rfl

/-- Witness for C1: with an auto track before a manual track the manual
one is selected; with only auto tracks the first is selected. -/
theorem selector_first_manual_witness :
    selectJapanese [⟨"Japanese (auto-generated)", "ja", true, true⟩, ⟨"Japanese", "ja", false, true⟩] =
      some ⟨"Japanese", "ja", false, true⟩ ∧
    selectJapanese [⟨"Japanese (auto-generated)", "ja", true, true⟩, ⟨"日本語", "ja", true, true⟩] =
      some ⟨"Japanese (auto-generated)", "ja", true, true⟩ := by
  constructor
  · rw [(selector_first_manual_else_first _).1 (by decide)]
    decide
  · rw [(selector_first_manual_else_first _).2 (by decide) (by decide)]
    decide

/-- Unfolding of the operation when the catalog call succeeds. -/
theorem fetch_ok_eq (v src : String) (b : Bool)
    (l : List TranscriptDescriptor)
    (f : TranscriptDescriptor → Except FetchError (List RawSnippet)) :
    fetch_japanese_transcript v src b (.ok l) f =
      match selectJapanese l with
      | none => noJapaneseResult v src l
      | some sel =>
        match f sel with
        | .error e => errorResult v src b e
        | .ok fetched =>
          foundResult v src sel (l.filter isJapaneseCandidate)
            (segments fetched) := rfl

/-- C5: in every success result, `totalSegments` is the length of the
segment sequence, and `totalDuration` is the last segment's `end` when
the sequence is non-empty and `0` when it is empty; in particular a
single retained snippet with start `1.0` and duration `2.5` yields
`totalDuration = 3.5`. -/
theorem found_totals (v src : String) (sel : TranscriptDescriptor)
    (jap : List TranscriptDescriptor) (segs : List Segment) :
    (foundResult v src sel jap segs).totalSegments = some segs.length ∧
    (segs = [] → (foundResult v src sel jap segs).totalDuration = some 0) ∧
    (∀ sg, segs.getLast? = some sg →
      (foundResult v src sel jap segs).totalDuration = some sg.«end») ∧
    (fetch_japanese_transcript v src false
        (.ok [⟨"Japanese", "ja", false, true⟩])
        (fun _ => .ok [⟨1, 2.5, "hello"⟩])).totalDuration =
      some (3.5 : ℚ) := by
  refine ⟨rfl, ?_, ?_, ?_⟩
  · intro h
    subst h
    rfl
  · intro sg hsg
    simp only [foundResult, hsg]
  · show some ((1 : ℚ) + 2.5) = some (3.5 : ℚ)
    norm_num

/-- Witness for C5: the empty and the one-segment cases. -/
theorem found_totals_witness :
    (foundResult "v" "s" ⟨"Japanese", "ja", false, true⟩ [] []).totalDuration
      = some 0 ∧
    (foundResult "v" "s" ⟨"Japanese", "ja", false, true⟩ []
        [⟨0, 2, 2, "hi"⟩]).totalDuration = some (2 : ℚ) :=
  ⟨(found_totals "v" "s" ⟨"Japanese", "ja", false, true⟩ [] []).2.1 rfl,
    (found_totals "v" "s" ⟨"Japanese", "ja", false, true⟩ []
      [⟨0, 2, 2, "hi"⟩]).2.2.1 ⟨0, 2, 2, "hi"⟩ rfl⟩

/-- C6: with a retrieved catalog containing no Japanese candidate, the
operation returns the not-found result with the exact message and every
catalog descriptor rendered as `language (language_code)`, in catalog
order. -/
theorem no_japanese_notfound (v src : String) (b : Bool)
    (l : List TranscriptDescriptor)
    (f : TranscriptDescriptor → Except FetchError (List RawSnippet))
    (h : l.filter isJapaneseCandidate = []) :
    fetch_japanese_transcript v src b (.ok l) f =
      { available := false, videoId := v, message := some "No Japanese transcripts available for this video", availableLanguages := some (l.map fun t => t.language ++ " (" ++ t.language_code ++ ")"), source := src } := by
  have hsel : selectJapanese l = none := selectJapanese_eq_nil l h
  rw [fetch_ok_eq, hsel]
  rfl

/-- Witness for C6: an English-only catalog. -/
theorem no_japanese_notfound_witness :
    fetch_japanese_transcript "abc" "python-transcript-api" false
      (.ok [⟨"English", "en", false, true⟩]) (fun _ => .ok []) =
      { available := false, videoId := "abc", message := some "No Japanese transcripts available for this video", availableLanguages := some ["English (en)"], source := "python-transcript-api" } := by
  rw [no_japanese_notfound "abc" "python-transcript-api" false
    [⟨"English", "en", false, true⟩] (fun _ => .ok []) (by decide)]
  decide

/-- C7 as written is false: when the catalog is retrieved and the
downstream fetch signals the no-transcript-found error, the emitted
not-found result has no `availableLanguages` at all (the handler attaches
none), rather than the full catalog list. -/
theorem downstream_notfound_counterexample :
    (fetch_japanese_transcript "vid" "python-transcript-api" false
      (.ok [⟨"Japanese", "ja", false, true⟩])
      (fun _ => .error (.noTranscriptFound "no data"))).availableLanguages
      = none := by decide

/-- C7 amended: when the catalog was retrieved, a track selected, and the
no-transcript-found error is signaled downstream, the operation emits the
not-found result with message `No transcript found: ...` and no
`availableLanguages`, exactly like the transcripts-disabled and generic
fetch-error handlers. -/
theorem downstream_notfound_no_languages (v src m : String) (b : Bool)
    (l : List TranscriptDescriptor) (sel : TranscriptDescriptor)
    (hsel : selectJapanese l = some sel) :
    fetch_japanese_transcript v src b (.ok l)
        (fun _ => .error (.noTranscriptFound m)) =
      { available := false, videoId := v, message := some ("No transcript found: " ++ m), source := src } := by
  rw [fetch_ok_eq, hsel]
  rfl

/-- Witness for C7 amended: a one-track Japanese catalog whose fetch
fails with the no-transcript-found error. -/
theorem downstream_notfound_no_languages_witness :
    fetch_japanese_transcript "vid" "gcp-cloud-function" true
      (.ok [⟨"Japanese", "ja", false, true⟩])
      (fun _ => .error (.noTranscriptFound "xyz")) =
      { available := false, videoId := "vid", message := some ("No transcript found: " ++ "xyz"), source := "gcp-cloud-function" } :=
  downstream_notfound_no_languages "vid" "gcp-cloud-function" "xyz" true
    [⟨"Japanese", "ja", false, true⟩] ⟨"Japanese", "ja", false, true⟩
    (by decide)

/-- C8: the disabled error from the catalog yields the not-found result
with the exact message and no `availableLanguages`; moreover every error
from the catalog or the fetch capability is converted into a result with
`available = false`, never propagated out of the operation (which is a
total function into `Result`). -/
theorem disabled_notfound_and_errors_caught (v src : String) (b : Bool)
    (f : TranscriptDescriptor → Except FetchError (List RawSnippet)) :
    (fetch_japanese_transcript v src b (.error .transcriptsDisabled) f =
      { available := false, videoId := v, message := some "Transcripts are disabled for this video", source := src }) ∧
    (∀ e : FetchError,
      (fetch_japanese_transcript v src b (.error e) f).available = false) ∧
    (∀ (e : FetchError) (l : List TranscriptDescriptor),
      (fetch_japanese_transcript v src b (.ok l)
        (fun _ => .error e)).available = false) := by
  refine ⟨rfl, fun e => ?_, fun e l => ?_⟩
  · cases e <;> rfl
  · rw [fetch_ok_eq]
    cases hsel : selectJapanese l with
    | none => rfl
    | some sel => cases e <;> rfl

/-- C10: every result with `available = true` carries a `title` field
whose value is `"Video "` concatenated with the video id. -/
theorem found_has_title (v src : String) (b : Bool)
    (lt : Except FetchError (List TranscriptDescriptor))
    (f : TranscriptDescriptor → Except FetchError (List RawSnippet))
    (h : (fetch_japanese_transcript v src b lt f).available = true) :
    (fetch_japanese_transcript v src b lt f).title = some ("Video " ++ v) := by
  cases lt with
  | error e => cases e <;> exact Bool.noConfusion h
  | ok l =>
    rw [fetch_ok_eq] at h ⊢
    cases hsel : selectJapanese l with
    | none =>
      rw [hsel] at h
      exact Bool.noConfusion h
    | some sel =>
      rw [hsel] at h
      have h2 : (match f sel with
        | Except.error e => errorResult v src b e
        | Except.ok fetched => foundResult v src sel
            (l.filter isJapaneseCandidate) (segments fetched)).available
          = true := h
      show (match f sel with
        | Except.error e => errorResult v src b e
        | Except.ok fetched => foundResult v src sel
            (l.filter isJapaneseCandidate) (segments fetched)).title
          = some ("Video " ++ v)
      cases hf : f sel with
      | error e =>
        rw [hf] at h2
        cases e <;> exact Bool.noConfusion h2
      | ok snips => rfl

/-- Witness for C10: a successful run over a one-track catalog. -/
theorem found_has_title_witness :
    (fetch_japanese_transcript "xyz" "gcp-cloud-function" true
      (.ok [⟨"日本語", "ja", true, true⟩]) (fun _ => .ok [])).title =
      some ("Video " ++ "xyz") :=
  found_has_title "xyz" "gcp-cloud-function" true
    (.ok [⟨"日本語", "ja", true, true⟩]) (fun _ => .ok []) (by decide)
